import Mathlib

/-!
A shallow embedding of the ADB socket layer of this repository
(`src/libraries/adb/src/socket/socket.ts`) and of the WebUSB transport
adapter (`AdbWebUsbBackendStream`, `findUsbEndpoints`), together with
theorems settling the specification's claims about them.

Bytes are modelled as `Nat` (each `< 256` on the wire, but the socket layer
never inspects byte values), byte strings as `List Nat`, and promises
(`PromiseResolver`) as an explicit `FutureState`.
-/

namespace Adb

/-- The state of a `PromiseResolver<void>`: created unresolved, then either
resolved (`resolve()`) or rejected with an error message (`reject(new Error(msg))`).
A settled promise ignores later `resolve`/`reject` calls. -/
inductive FutureState where
  | unresolved
  | resolved
  | rejected (msg : String)
deriving DecidableEq, Repr

/-- `resolve()` on a `PromiseResolver`: settles an unresolved promise with a
value; a no-op on an already settled promise. -/
def FutureState.resolve : FutureState → FutureState
  | .unresolved => .resolved
  | f => f

/-- `reject(new Error(msg))` on a `PromiseResolver`: settles an unresolved
promise with an error; a no-op on an already settled promise. -/
def FutureState.reject (msg : String) : FutureState → FutureState
  | .unresolved => .rejected msg
  | f => f

/-- ADB command tags (`AdbCommand` from `../packet.js`); the socket layer uses
only `Write` (WRTE), `Okay` (OKAY) and `Close` (CLSE). -/
inductive AdbCommand where
  | connect
  | auth
  | openSocket
  | okay
  | write
  | close
deriving DecidableEq, Repr

/-- An outbound packet as handed to `dispatcher.sendPacket(command, arg0, arg1, payload)`. -/
structure SentPacket where
  command : AdbCommand
  arg0 : Nat
  arg1 : Nat
  payload : List Nat
deriving DecidableEq, Repr

/-- The mutable state of an `AdbSocketController`
(`src/libraries/adb/src/socket/socket.ts`): the identifying fields copied from
`AdbSocketConstructionOptions`, the `_closed` flag, the `_writePromise`
(`pendingWriteAck`) promise (absent until the first write), and the stream
objects `_readable` and `writable` built in the constructor, modelled by
opaque identity tokens (the socket layer only ever returns these objects, it
never replaces them). -/
structure SocketState where
  localId : Nat
  remoteId : Nat
  localCreated : Bool
  serviceString : String
  closed : Bool
  writePromise : Option FutureState
  readable : Nat
  writable : Nat
deriving DecidableEq, Repr

/-- The first half of the `writable` sink's `write` callback
(`socket.ts` lines 82-92): store a fresh `PromiseResolver` in `_writePromise`,
then send exactly one `WRTE(localId, remoteId, chunk)` through the dispatcher.
The callback then suspends on the promise (see `writeSettled`). -/
def SocketState.startWrite (s : SocketState) (chunk : List Nat) :
    SocketState × List SentPacket :=
  ({ s with writePromise := some .unresolved },
   [⟨AdbCommand.write, s.localId, s.remoteId, chunk⟩])

/-- Whether `await this._writePromise.promise` at the end of the `write`
callback has completed: the promise exists and is settled (resolved with a
value, or rejected because the socket closed). -/
def SocketState.writeSettled (s : SocketState) : Bool :=
  match s.writePromise with
  | some .resolved => true
  | some (.rejected _) => true
  | _ => false

/-- `AdbSocketController.ack()` (`socket.ts` lines 105-107):
`this._writePromise?.resolve()` — resolve the pending write promise when one
exists; otherwise do nothing. -/
def SocketState.ack (s : SocketState) : SocketState :=
  { s with writePromise := s.writePromise.map FutureState.resolve }

/-- The `dispose` callback given to `DuplexStreamFactory`
(`socket.ts` lines 62-67), run via `AdbSocketController.dispose()`: set
`_closed` to `true` and `this._writePromise?.reject(new Error('Socket closed'))`. -/
def SocketState.dispose (s : SocketState) : SocketState :=
  { s with
    closed := true
    writePromise := s.writePromise.map (FutureState.reject "Socket closed") }

/-- The `close` callback given to `DuplexStreamFactory`
(`socket.ts` lines 51-61): send one `CLSE(localId, remoteId)` packet through
the dispatcher, and return `false` ("Don't `dispose` here, we need to wait for
`CLSE` response packet"). -/
def SocketState.closeCallback (s : SocketState) : List SentPacket × Bool :=
  ([⟨AdbCommand.close, s.localId, s.remoteId, []⟩], false)

/-- Modelled from the spec: `DuplexStreamFactory.close` is not under `src/`
(only the callbacks registered with it are). Per the spec's close protocol —
"Initiate local close: send `CLSE(localId, remoteId)`; do NOT dispose local
state yet" — the factory runs the registered `close` callback and invokes the
registered `dispose` callback only when that callback returns `true`. -/
def SocketState.factoryClose (s : SocketState) : SocketState × List SentPacket :=
  let r := s.closeCallback
  (if r.2 then s.dispose else s, r.1)

/-- Modelled from the spec: `ChunkStream` (from `../stream/index.js`) is not
under `src/`; `socket.ts` line 95 pipes the writable through
`new ChunkStream(this.dispatcher.options.maxPayloadSize)`. Per the spec —
"Chunk the input into pieces of at most `maxPayloadSize`" — a byte string
that fits in `maxSize` passes through as one piece; a longer one is split
into consecutive `maxSize`-byte pieces with a shorter final remainder.
The spec fixes `maxPayloadSize ≥ 4096`; the `maxSize = 0` guard exists only
to make the recursion total and is outside the spec's domain. -/
def chunkBytes (maxSize : Nat) (b : List Nat) : List (List Nat) :=
  if b.length ≤ maxSize ∨ maxSize = 0 then
    [b]
  else
    b.take maxSize :: chunkBytes maxSize (b.drop maxSize)
termination_by b.length
decreasing_by
  simp only [not_or] at *
  simp only [List.length_drop]
  omega

/-- A per-socket wire event as seen at the dispatcher boundary: one outbound
`WRTE` carrying a payload, or one inbound `OKAY` acknowledgement. -/
inductive WireEvent where
  | wrte (payload : List Nat)
  | okay
deriving DecidableEq, Repr

/-- The sequential execution of the `writable` sink over a list of chunks:
the stream machinery invokes the `write` callback (`socket.ts` lines 82-92)
once per chunk, one chunk at a time. Each call stores a fresh promise and
sends one `WRTE` (`startWrite`), then suspends on the promise, which only the
dispatcher's `OKAY` delivery (`ack`) resolves — so the events of each chunk
are `wrte payload` followed by `okay`, and no later chunk's `WRTE` can
precede an earlier chunk's `OKAY`. Returns the final state and the event
trace. -/
def execWrite (s : SocketState) : List (List Nat) → SocketState × List WireEvent
  | [] => (s, [])
  | c :: cs =>
    let s1 := (s.startWrite c).1
    let s2 := s1.ack
    let r := execWrite s2 cs
    (r.1, WireEvent.wrte c :: WireEvent.okay :: r.2)

/-- Count of `WRTE` events in a trace. -/
def countWrte (tr : List WireEvent) : Nat :=
  tr.countP fun e => match e with | .wrte _ => true | .okay => false

/-- Count of `OKAY` events in a trace. -/
def countOkay (tr : List WireEvent) : Nat :=
  tr.countP fun e => match e with | .wrte _ => false | .okay => true

/-- The payloads of the `WRTE` events of a trace, in order. -/
def wrtePayloads (tr : List WireEvent) : List (List Nat) :=
  tr.filterMap fun e => match e with | .wrte p => some p | .okay => none

/-- A WHATWG queuing strategy as passed to a stream constructor: a high-water
mark and a size function over byte chunks. -/
structure QueuingStrategy where
  highWaterMark : Nat
  size : List Nat → Nat

/-- The queuing strategy of the `PushReadableStream` backing
`AdbSocketController._readable` (`socket.ts` lines 70-77):
`highWaterMark: options.highWaterMark ?? 16 * 1024` and
`size(chunk) { return chunk.byteLength; }`. -/
def readableStrategy (highWaterMarkOption : Option Nat) : QueuingStrategy where
  highWaterMark := highWaterMarkOption.getD (16 * 1024)
  size := fun chunk => chunk.length

/-- The public `AdbSocket` wrapper (`socket.ts` lines 126-144): holds only a
reference to its `AdbSocketController`. -/
structure AdbSocket where
  controller : SocketState
deriving DecidableEq, Repr

/-- `AdbSocket`'s `localId` getter: `return this._controller.localId`. -/
def AdbSocket.localId (s : AdbSocket) : Nat := s.controller.localId

/-- `AdbSocket`'s `remoteId` getter: `return this._controller.remoteId`. -/
def AdbSocket.remoteId (s : AdbSocket) : Nat := s.controller.remoteId

/-- `AdbSocket`'s `localCreated` getter: `return this._controller.localCreated`. -/
def AdbSocket.localCreated (s : AdbSocket) : Bool := s.controller.localCreated

/-- `AdbSocket`'s `serviceString` getter: `return this._controller.serviceString`. -/
def AdbSocket.serviceString (s : AdbSocket) : String := s.controller.serviceString

/-- `AdbSocket`'s `readable` getter: `return this._controller.readable`. -/
def AdbSocket.readable (s : AdbSocket) : Nat := s.controller.readable

/-- `AdbSocket`'s `writable` getter: `return this._controller.writable`. -/
def AdbSocket.writable (s : AdbSocket) : Nat := s.controller.writable

/-- `AdbSocket.close()`: `return this._controller.close()`, which runs
`this._factory.close()` (`socket.ts` lines 109-111, 141-143). -/
def AdbSocket.close (s : AdbSocket) : SocketState × List SentPacket :=
  s.controller.factoryClose

end Adb

namespace WebUsb

/-- `Uint8ArrayStructDeserializeStream` (`AdbWebUsbBackendStream`'s header
parser input): a buffer and a cursor; `read(length)` returns
`buffer.subarray(offset, offset + length)` and advances the cursor. -/
structure DeserStream where
  buffer : List Nat
  offset : Nat
deriving DecidableEq, Repr

/-- `Uint8ArrayStructDeserializeStream.read(length)`. -/
def DeserStream.read (s : DeserStream) (length : Nat) : List Nat × DeserStream :=
  (((s.buffer.drop s.offset).take length), { s with offset := s.offset + length })

/-- A little-endian 32-bit word from four bytes (missing bytes read as 0). -/
def wordLE (b : List Nat) : Nat :=
  b.getD 0 0 + 256 * b.getD 1 0 + 65536 * b.getD 2 0 + 16777216 * b.getD 3 0

/-- The decoded 24-byte ADB packet header. -/
structure AdbPacketHeader where
  command : Nat
  arg0 : Nat
  arg1 : Nat
  payloadLength : Nat
  checksum : Nat
  magic : Nat
deriving DecidableEq, Repr

/-- Modelled from the spec: `AdbPacketHeader.deserialize` (from
`@yume-chan/adb`) is not under `src/`. Per the spec's wire format — six
little-endian `u32` fields `command`, `arg0`, `arg1`, `payload_length`,
`payload_crc32`, `magic` at offsets 0, 4, 8, 12, 16, 20 — it performs six
sequential 4-byte reads from the given deserialize stream. -/
def deserializeHeader (s : DeserStream) : AdbPacketHeader × DeserStream :=
  let r0 := s.read 4
  let r1 := r0.2.read 4
  let r2 := r1.2.read 4
  let r3 := r2.2.read 4
  let r4 := r3.2.read 4
  let r5 := r4.2.read 4
  (⟨wordLE r0.1, wordLE r1.1, wordLE r2.1, wordLE r3.1, wordLE r4.1, wordLE r5.1⟩, r5.2)

/-- The result of one `pull` of `AdbWebUsbBackendStream._readable`
(`part_000` lines 171-208): the sequence of `transferIn` lengths requested
from the device, and the packets enqueued into the stream controller. -/
structure PullResult where
  reads : List Nat
  enqueued : List (AdbPacketHeader × List Nat)
deriving DecidableEq, Repr

/-- One `pull` of the readable side of `AdbWebUsbBackendStream`
(`part_000` lines 171-208), with the USB device modelled as an oracle
`transferIn` from a requested length to the returned transfer data:
`transferIn(inEndpoint, 24)` fetches the header bytes, the header is
deserialized from them, and iff `payloadLength` is nonzero a second
`transferIn(inEndpoint, payloadLength)` fetches the payload (otherwise the
payload is the empty array `EMPTY_UINT8_ARRAY` and no second transfer
happens); one packet is enqueued. -/
def pull (transferIn : Nat → List Nat) : PullResult :=
  let headerBytes := transferIn 24
  let packet := (deserializeHeader ⟨headerBytes, 0⟩).1
  if packet.payloadLength ≠ 0 then
    { reads := [24, packet.payloadLength]
      enqueued := [(packet, transferIn packet.payloadLength)] }
  else
    { reads := [24]
      enqueued := [(packet, [])] }

/-- A WebUSB endpoint direction (`USBDirection`): `"in"` or `"out"`. -/
inductive Direction where
  | din
  | dout
deriving DecidableEq, Repr

/-- A WebUSB `USBEndpoint`, as far as `findUsbEndpoints` inspects it. -/
structure USBEndpoint where
  direction : Direction
  endpointNumber : Nat
deriving DecidableEq, Repr

/-- The `for (const endpoint of endpoints)` loop of `findUsbEndpoints`
(`part_000` lines 80-103) with its two accumulator variables `inEndpoint` and
`outEndpoint`, followed by the error returns after the loop. -/
def findLoop : List USBEndpoint → Option USBEndpoint → Option USBEndpoint →
    Except String (USBEndpoint × USBEndpoint)
  | [], inEndpoint, outEndpoint =>
    match inEndpoint, outEndpoint with
    | none, _ => .error "No input endpoint found."
    | some _, none => .error "No output endpoint found."
    | some _, some _ => .error "unreachable"
  | e :: rest, inEndpoint, outEndpoint =>
    match e.direction with
    | .din =>
      match outEndpoint with
      | some o => .ok (e, o)
      | none => findLoop rest (some e) outEndpoint
    | .dout =>
      match inEndpoint with
      | some i => .ok (i, e)
      | none => findLoop rest inEndpoint (some e)

/-- `findUsbEndpoints` (`part_000` lines 72-104): reject an empty endpoint
list, then scan for the first in/out pair. -/
def findUsbEndpoints (endpoints : List USBEndpoint) :
    Except String (USBEndpoint × USBEndpoint) :=
  if endpoints.length = 0 then
    .error "No endpoints given"
  else
    findLoop endpoints none none

end WebUsb

namespace Adb

/-- Every piece produced by `chunkBytes` has length at most `maxSize`
(for a positive `maxSize`). -/
theorem chunkBytes_sizes (maxSize : Nat) (b : List Nat) (h : 0 < maxSize) :
    ∀ p ∈ chunkBytes maxSize b, p.length ≤ maxSize := by
  rw [chunkBytes]
  split
  · rename_i hcase
    intro p hp
    simp only [List.mem_singleton] at hp
    subst hp
    rcases hcase with hc | hc
    · exact hc
    · omega
  · rename_i hcase
    intro p hp
    simp only [List.mem_cons] at hp
    rcases hp with hp | hp
    · subst hp
      simp [List.length_take]
    · exact chunkBytes_sizes maxSize (b.drop maxSize) h p hp
termination_by b.length
decreasing_by
  simp only [List.length_drop]
  omega

/-- Concatenating the pieces produced by `chunkBytes` restores the input. -/
theorem chunkBytes_join (maxSize : Nat) (b : List Nat) :
    (chunkBytes maxSize b).flatten = b := by
  rw [chunkBytes]
  split
  · simp
  · rename_i hcase
    simp only [List.flatten_cons]
    rw [chunkBytes_join maxSize (b.drop maxSize)]
    exact List.take_append_drop maxSize b
termination_by b.length
decreasing_by
  simp only [List.length_drop]
  omega

/-- The `WRTE` payloads emitted by the write path are exactly the chunks it
was given, in order. -/
theorem wrtePayloads_execWrite (cs : List (List Nat)) :
    ∀ s : SocketState, wrtePayloads (execWrite s cs).2 = cs := by
  induction cs with
  | nil => intro s; rfl
  | cons c cs ih =>
    intro s
    simp only [execWrite, wrtePayloads, List.filterMap_cons] at *
    exact congrArg (c :: ·) (ih _)

/-- C2: the write path splits a byte string into `WRTE` payloads each of
length at most `maxPayloadSize`, emitted in order, whose concatenation is
exactly the input: no byte added, dropped or reordered. -/
theorem write_path_chunks_exactly (maxSize : Nat) (b : List Nat)
    (s : SocketState) (h : 0 < maxSize) :
    (wrtePayloads (execWrite s (chunkBytes maxSize b)).2 = chunkBytes maxSize b)
    ∧ (∀ p ∈ chunkBytes maxSize b, p.length ≤ maxSize)
    ∧ ((chunkBytes maxSize b).flatten = b) :=
  ⟨wrtePayloads_execWrite _ _, chunkBytes_sizes maxSize b h, chunkBytes_join maxSize b⟩

/-- Witness for `write_path_chunks_exactly`: a 10-byte write against
`maxPayloadSize = 4` round-trips. -/
theorem write_path_chunks_exactly_witness :
    0 < 4 ∧ (chunkBytes 4 [0, 1, 2, 3, 4, 5, 6, 7, 8, 9]).flatten
      = [0, 1, 2, 3, 4, 5, 6, 7, 8, 9] :=
  ⟨by decide,
   (write_path_chunks_exactly 4 _ ⟨1, 2, true, "shell:", false, none, 0, 0⟩
     (by decide)).2.2⟩

/-- C1: one-in-flight. In every prefix of the wire-event trace of a socket's
write path, the number of `WRTE` packets sent minus the number of `OKAY`
acknowledgements received is 0 or 1: each chunk's single `WRTE` is followed
by its `OKAY` before the next chunk's `WRTE` can be sent, because the write
callback suspends on the pending promise. -/
theorem one_wrte_in_flight (s : SocketState) (chunks : List (List Nat)) (n : Nat) :
    countWrte ((execWrite s chunks).2.take n)
      = countOkay ((execWrite s chunks).2.take n)
    ∨ countWrte ((execWrite s chunks).2.take n)
      = countOkay ((execWrite s chunks).2.take n) + 1 := by
  induction chunks generalizing s n with
  | nil =>
    left
    simp [execWrite, List.take_nil, countWrte, countOkay]
  | cons c cs ih =>
    match n with
    | 0 =>
      left
      simp [List.take_zero, countWrte, countOkay]
    | 1 =>
      right
      simp [execWrite, List.take_succ_cons, List.take_zero, countWrte,
        countOkay, List.countP_cons, List.countP_nil]
    | (m + 2) =>
      have hrec := ih ((s.startWrite c).1.ack) m
      simp only [execWrite, List.take_succ_cons, countWrte, countOkay,
        List.countP_cons] at *
      omega

/-- C3: a pending write completes exactly when the dispatcher delivers the
acknowledgement. `startWrite` creates the promise before emitting the single
`WRTE(localId, remoteId, chunk)`; the write callback has not completed while
the promise is unresolved; `ack()` resolves exactly that promise, completing
the write; if instead the socket is disposed while waiting, the write also
completes (by rejection). -/
theorem write_completes_on_ack_or_close (s : SocketState) (chunk : List Nat) :
    ((s.startWrite chunk).2 = [⟨AdbCommand.write, s.localId, s.remoteId, chunk⟩])
    ∧ ((s.startWrite chunk).1.writePromise = some FutureState.unresolved)
    ∧ ((s.startWrite chunk).1.writeSettled = false)
    ∧ ((s.startWrite chunk).1.ack.writePromise = some FutureState.resolved)
    ∧ ((s.startWrite chunk).1.ack.writeSettled = true)
    ∧ ((s.startWrite chunk).1.dispose.writeSettled = true) :=
  ⟨rfl, rfl, rfl, rfl, rfl, rfl⟩

/-- C4: disposing a socket sets its `closed` flag and rejects a pending
(unresolved) write promise with the error message `Socket closed`; when no
write promise exists the dispose produces no rejection at all. -/
theorem dispose_closes_and_rejects (s : SocketState) :
    (s.dispose.closed = true)
    ∧ (s.writePromise = some FutureState.unresolved →
        s.dispose.writePromise = some (FutureState.rejected "Socket closed"))
    ∧ (s.writePromise = none → s.dispose.writePromise = none) := by
  refine ⟨rfl, ?_, ?_⟩ <;> intro h <;>
    simp [SocketState.dispose, h, FutureState.reject]

/-- Witness for `dispose_closes_and_rejects` at concrete sockets with a
pending write and with no write promise. -/
theorem dispose_closes_and_rejects_witness :
    (SocketState.dispose ⟨1, 2, true, "shell:", false, some FutureState.unresolved, 0, 0⟩).writePromise
      = some (FutureState.rejected "Socket closed")
    ∧ (SocketState.dispose ⟨1, 2, true, "shell:", false, none, 0, 0⟩).writePromise = none :=
  ⟨(dispose_closes_and_rejects _).2.1 rfl, (dispose_closes_and_rejects _).2.2 rfl⟩

/-- C5: initiating a local close sends exactly one `CLSE(localId, remoteId)`
packet and leaves the socket state — in particular the `closed` flag and any
pending write promise — completely unchanged: disposal waits for the peer's
`CLSE`. -/
theorem close_sends_one_clse_no_dispose (s : SocketState) :
    (s.factoryClose.2 = [⟨AdbCommand.close, s.localId, s.remoteId, []⟩])
    ∧ (s.factoryClose.1 = s) :=
  ⟨rfl, rfl⟩

/-- C6: delivering an `OKAY` acknowledgement when no write is pending is a
no-op: `ack()` leaves the socket state unchanged when the write promise is
absent or already resolved. -/
theorem ack_without_pending_write_noop (s : SocketState)
    (h : s.writePromise = none ∨ s.writePromise = some FutureState.resolved) :
    s.ack = s := by
  cases s
  rcases h with h | h <;> simp only at h <;> subst h <;> rfl

/-- Witness for `ack_without_pending_write_noop` at concrete sockets. -/
theorem ack_without_pending_write_noop_witness :
    SocketState.ack ⟨1, 2, true, "shell:", false, none, 0, 0⟩
      = ⟨1, 2, true, "shell:", false, none, 0, 0⟩
    ∧ SocketState.ack ⟨1, 2, true, "shell:", false, some FutureState.resolved, 0, 0⟩
      = ⟨1, 2, true, "shell:", false, some FutureState.resolved, 0, 0⟩ :=
  ⟨ack_without_pending_write_noop _ (Or.inl rfl),
   ack_without_pending_write_noop _ (Or.inr rfl)⟩

/-- C8: the inbound readable stream is constructed with a byte-length size
measure and a high-water mark equal to the `highWaterMark` construction
option when provided and `16 * 1024 = 16384` bytes otherwise. -/
theorem readable_queue_strategy (o : Option Nat) (n : Nat) (chunk : List Nat) :
    ((readableStrategy (some n)).highWaterMark = n)
    ∧ ((readableStrategy none).highWaterMark = 16384)
    ∧ ((readableStrategy o).size chunk = chunk.length) :=
  ⟨rfl, rfl, rfl⟩

/-- C9: the public `AdbSocket` wrapper is observationally equal to its
controller at the public interface: every getter returns the controller's
corresponding value, and `close()` performs exactly the controller's
`close()` (i.e. `factoryClose`). -/
theorem adbSocket_refines_controller (c : SocketState) :
    ((AdbSocket.mk c).localId = c.localId)
    ∧ ((AdbSocket.mk c).remoteId = c.remoteId)
    ∧ ((AdbSocket.mk c).localCreated = c.localCreated)
    ∧ ((AdbSocket.mk c).serviceString = c.serviceString)
    ∧ ((AdbSocket.mk c).readable = c.readable)
    ∧ ((AdbSocket.mk c).writable = c.writable)
    ∧ ((AdbSocket.mk c).close = c.factoryClose) :=
  ⟨rfl, rfl, rfl, rfl, rfl, rfl, rfl⟩

end Adb

namespace WebUsb

/-- C7: each pull performs one bulk read of exactly 24 bytes, deserializes
the packet header from those bytes, performs a second bulk read of exactly
`payloadLength` bytes iff the header's `payloadLength` is nonzero (with the
payload empty and no second read otherwise), and enqueues exactly one packet. -/
theorem pull_reads_header_then_payload (transferIn : Nat → List Nat) :
    ((pull transferIn).enqueued.length = 1)
    ∧ ((deserializeHeader ⟨transferIn 24, 0⟩).1.payloadLength ≠ 0 →
        (pull transferIn).reads
          = [24, (deserializeHeader ⟨transferIn 24, 0⟩).1.payloadLength]
        ∧ (pull transferIn).enqueued
          = [((deserializeHeader ⟨transferIn 24, 0⟩).1,
              transferIn (deserializeHeader ⟨transferIn 24, 0⟩).1.payloadLength)])
    ∧ ((deserializeHeader ⟨transferIn 24, 0⟩).1.payloadLength = 0 →
        (pull transferIn).reads = [24]
        ∧ (pull transferIn).enqueued
          = [((deserializeHeader ⟨transferIn 24, 0⟩).1, [])]) := by
  refine ⟨?_, ?_, ?_⟩
  · simp only [pull]
    split <;> rfl
  · intro h
    simp only [pull]
    rw [if_pos h]
    exact ⟨rfl, rfl⟩
  · intro h
    simp only [pull]
    rw [if_neg (fun hc => hc h)]
    exact ⟨rfl, rfl⟩

/-- Witness for `pull_reads_header_then_payload`: a device sending an
all-zero header yields one 24-byte read; a device answering every request
with all-ones bytes yields a header read and a payload read. -/
theorem pull_reads_header_then_payload_witness :
    (pull (fun _ => List.replicate 24 0)).reads = [24]
    ∧ (pull (fun n => List.replicate n 1)).reads = [24, 16843009] :=
  ⟨((pull_reads_header_then_payload (fun _ => List.replicate 24 0)).2.2
      (by decide)).1,
   ((pull_reads_header_then_payload (fun n => List.replicate n 1)).2.1
      (by decide)).1⟩

/-- Whatever endpoints `findLoop` returns satisfy the accumulator
invariants: a stored `inEndpoint` has direction `in`, a stored `outEndpoint`
direction `out`, and an `ok` result pairs an `in` with an `out`. -/
theorem findLoop_ok_directions (es : List USBEndpoint) :
    ∀ (iE oE : Option USBEndpoint) (i o : USBEndpoint),
    (∀ e, iE = some e → e.direction = Direction.din) →
    (∀ e, oE = some e → e.direction = Direction.dout) →
    findLoop es iE oE = Except.ok (i, o) →
    i.direction = Direction.din ∧ o.direction = Direction.dout := by
  induction es with
  | nil =>
    intro iE oE i o hi ho h
    cases iE <;> cases oE <;> simp [findLoop] at h
  | cons e rest ih =>
    intro iE oE i o hi ho h
    obtain ⟨d, num⟩ := e
    cases d with
    | din =>
      cases oE with
      | none =>
        exact ih (some ⟨Direction.din, num⟩) none i o
          (fun x hx => by cases hx; rfl) ho h
      | some o2 =>
        simp only [findLoop, Except.ok.injEq, Prod.mk.injEq] at h
        obtain ⟨h1, h2⟩ := h
        subst h1
        subst h2
        exact ⟨rfl, ho o2 rfl⟩
    | dout =>
      cases iE with
      | none =>
        exact ih none (some ⟨Direction.dout, num⟩) i o hi
          (fun x hx => by cases hx; rfl) h
      | some i2 =>
        simp only [findLoop, Except.ok.injEq, Prod.mk.injEq] at h
        obtain ⟨h1, h2⟩ := h
        subst h1
        subst h2
        exact ⟨hi i2 rfl, rfl⟩

/-- As long as at most one accumulator is filled — which the loop preserves,
returning as soon as both would be — `findLoop` never reaches the
`unreachable` branch after the loop. -/
theorem findLoop_ne_unreachable (es : List USBEndpoint) :
    ∀ (iE oE : Option USBEndpoint), (iE = none ∨ oE = none) →
    findLoop es iE oE ≠ Except.error "unreachable" := by
  induction es with
  | nil =>
    intro iE oE hyp h
    cases iE with
    | none =>
      exact absurd (Except.error.inj h) (by decide)
    | some i =>
      cases oE with
      | none => exact absurd (Except.error.inj h) (by decide)
      | some o =>
        rcases hyp with h' | h' <;> cases h'
  | cons e rest ih =>
    intro iE oE hyp h
    obtain ⟨d, num⟩ := e
    cases d with
    | din =>
      cases oE with
      | none => exact ih (some ⟨Direction.din, num⟩) none (Or.inr rfl) h
      | some o2 => simp [findLoop] at h
    | dout =>
      cases iE with
      | none => exact ih none (some ⟨Direction.dout, num⟩) (Or.inl rfl) h
      | some i2 => simp [findLoop] at h

/-- When an `in` endpoint is available (stored or ahead in the list), an
`out` endpoint likewise, and at most one accumulator is filled, the loop
returns a pair. -/
theorem findLoop_finds_pair (es : List USBEndpoint) :
    ∀ (iE oE : Option USBEndpoint),
    (iE ≠ none ∨ ∃ e ∈ es, e.direction = Direction.din) →
    (oE ≠ none ∨ ∃ e ∈ es, e.direction = Direction.dout) →
    (iE = none ∨ oE = none) →
    ∃ p, findLoop es iE oE = Except.ok p := by
  induction es with
  | nil =>
    intro iE oE h1 h2 h3
    exfalso
    rcases h1 with h1 | ⟨e, he, _⟩
    · rcases h2 with h2 | ⟨e, he, _⟩
      · rcases h3 with h3 | h3
        · exact h1 h3
        · exact h2 h3
      · exact absurd he (List.not_mem_nil e)
    · exact absurd he (List.not_mem_nil e)
  | cons e rest ih =>
    intro iE oE h1 h2 h3
    obtain ⟨d, num⟩ := e
    cases d with
    | din =>
      cases oE with
      | some o2 => exact ⟨(⟨Direction.din, num⟩, o2), rfl⟩
      | none =>
        have hrest : ∃ x ∈ rest, x.direction = Direction.dout := by
          rcases h2 with h2 | ⟨x, hx, hdx⟩
          · exact absurd rfl h2
          · rcases List.mem_cons.mp hx with hx | hx
            · subst hx
              exact Direction.noConfusion hdx
            · exact ⟨x, hx, hdx⟩
        obtain ⟨p, hp⟩ := ih (some ⟨Direction.din, num⟩) none
          (Or.inl (by simp)) (Or.inr hrest) (Or.inr rfl)
        exact ⟨p, hp⟩
    | dout =>
      cases iE with
      | some i2 => exact ⟨(i2, ⟨Direction.dout, num⟩), rfl⟩
      | none =>
        have hrest : ∃ x ∈ rest, x.direction = Direction.din := by
          rcases h1 with h1 | ⟨x, hx, hdx⟩
          · exact absurd rfl h1
          · rcases List.mem_cons.mp hx with hx | hx
            · subst hx
              exact Direction.noConfusion hdx
            · exact ⟨x, hx, hdx⟩
        obtain ⟨p, hp⟩ := ih none (some ⟨Direction.dout, num⟩)
          (Or.inr hrest) (Or.inl (by simp)) (Or.inl rfl)
        exact ⟨p, hp⟩

/-- C10: `findUsbEndpoints` only ever returns a pair whose first component
has direction `in` and second direction `out`; its trailing
`throw new Error("unreachable")` branch can never execute; and whenever the
endpoint list holds at least one endpoint of each direction it returns such
a pair rather than throwing. -/
theorem findUsbEndpoints_safe (endpoints : List USBEndpoint) :
    (∀ i o, findUsbEndpoints endpoints = Except.ok (i, o) →
        i.direction = Direction.din ∧ o.direction = Direction.dout)
    ∧ (findUsbEndpoints endpoints ≠ Except.error "unreachable")
    ∧ ((∃ e ∈ endpoints, e.direction = Direction.din) →
       (∃ e ∈ endpoints, e.direction = Direction.dout) →
        ∃ p, findUsbEndpoints endpoints = Except.ok p) := by
  refine ⟨?_, ?_, ?_⟩
  · intro i o h
    rw [findUsbEndpoints] at h
    split at h
    · exact Except.noConfusion h
    · exact findLoop_ok_directions endpoints none none i o
        (fun x hx => by cases hx) (fun x hx => by cases hx) h
  · rw [findUsbEndpoints]
    split
    · intro h
      exact absurd (Except.error.inj h) (by decide)
    · exact findLoop_ne_unreachable endpoints none none (Or.inl rfl)
  · intro hin hout
    rw [findUsbEndpoints]
    rw [if_neg ?_]
    · exact findLoop_finds_pair endpoints none none
        (Or.inr hin) (Or.inr hout) (Or.inl rfl)
    · obtain ⟨e, he, _⟩ := hin
      intro hlen
      rw [List.length_eq_zero] at hlen
      subst hlen
      exact List.not_mem_nil e he

/-- Witness for `findUsbEndpoints_safe`: a list holding one `out` endpoint
followed by one `in` endpoint yields a pair. -/
theorem findUsbEndpoints_safe_witness :
    ∃ p, findUsbEndpoints
      [⟨Direction.dout, 1⟩, ⟨Direction.din, 2⟩] = Except.ok p :=
  (findUsbEndpoints_safe _).2.2
    ⟨⟨Direction.din, 2⟩, by simp, rfl⟩
    ⟨⟨Direction.dout, 1⟩, by simp, rfl⟩

end WebUsb
